import Mathlib

/-
Verification development for a Steam download-monitor script
(src/Task_2/steam_script.py).  The script's pure logic is embedded
shallowly: Python floats (sizes divided by elapsed times, mtimes) become
rationals, filesystem and log observations become explicit environment
records, and the stateful monitoring loop becomes a step function on an
explicit state record.  Each definition cites the source lines it models.
-/

set_option linter.all false

namespace SteamScript

/-- Download status values used by the script: the strings
"downloading", "paused" and "unknown". -/
inductive Status where
  | downloading
  | paused
  | unknown
deriving DecidableEq

/-- The DownloadInfo dataclass (lines 218-223): one sample emitted per
monitoring tick. -/
structure DownloadInfo where
  appid : ℕ
  name : String
  status : Status
  speed_bps : ℚ
deriving DecidableEq

/-- One directory entry as observed by os.scandir over a "downloading"
directory (lines 248-256): whether entry.is_dir(follow_symlinks=False)
holds, the entry name, and the observed st_mtime of
entry.stat(follow_symlinks=False) (`none` when the stat call raises). -/
structure EntryScan where
  isDirNoFollow : Bool
  name : String
  statResult : Option ℚ
deriving DecidableEq

/-- One steamapps folder as observed by detect_appid_from_downloading_dir
(lines 240-258): whether its "downloading" subdirectory exists, whether
os.scandir on it succeeds, and the entries it lists. -/
structure LibScan where
  hasDownloading : Bool
  scanOk : Bool
  entries : List EntryScan
deriving DecidableEq

/-- One steamapps folder as observed by resolve_app_name (lines 226-237)
for a fixed appid: `manifest = some kvs` when the file
appmanifest_<appid>.acf exists there and parses (by parse_key_value_file,
lines 148-159) to the key/value pairs `kvs` in file order; `none` when the
manifest file is absent. -/
structure SteamappsFolder where
  manifest : Option (List (String × String))
deriving DecidableEq

/-- The loop-carried state of monitor_steam_downloads (lines 315-320):
last_size, last_appid, last_time and zero_streak. -/
structure MonState where
  last_size : Option ℕ
  last_appid : Option ℕ
  last_time : ℚ
  zero_streak : ℕ
deriving DecidableEq

/-- The per-tick filesystem and log observations consumed by one
iteration of the monitoring loop (lines 322-370): the downloading-dir
scans feeding detect_appid_from_downloading_dir, the log hint returned by
detect_status_from_content_log (line 335), the recursively summed size of
the candidate's downloading folder when get_downloading_folder resolves it
(lines 333, 341), the display name returned by resolve_app_name
(line 332), and the wall-clock time time.time() (line 337). -/
structure TickEnv where
  libs : List LibScan
  hintStatus : Option Status
  dlSize : Option ℕ
  name : String
  now : ℚ
deriving DecidableEq

/-- The unit strings of real_speed (line 22). -/
def speedUnits : List String := ["B/s", "KB/s", "MB/s", "GB/s"]

/-- The initial clamp of real_speed (lines 19-20): negative inputs
become 0. -/
def rclamp (x : ℚ) : ℚ := if x < 0 then 0 else x

/-- The while loop of real_speed (lines 26-28), with explicit fuel: while
`1024 ≤ val` and `i < len(units) - 1`, divide val by 1024 and increment i.
Started at i = 0 the loop runs at most 3 iterations, so fuel 3 is exact. -/
def rs_loop : ℕ → ℚ → ℕ → ℚ × ℕ
  | 0, v, i => (v, i)
  | fuel + 1, v, i =>
    if 1024 ≤ v ∧ i < speedUnits.length - 1 then rs_loop fuel (v / 1024) (i + 1)
    else (v, i)

/-- The numeric core of real_speed (lines 18-30): the clamped value after
unit scaling, together with the selected unit index. -/
def real_speed_core (x : ℚ) : ℚ × ℕ := rs_loop 3 (rclamp x) 0

/-- Unit tier selected by real_speed for a clamped value, as a closed
form: the number of times 1024 divides into the value, capped at 3. -/
def tierOf (m : ℚ) : ℕ :=
  if 1024 ^ 3 ≤ m then 3 else if 1024 ^ 2 ≤ m then 2 else if 1024 ≤ m then 1 else 0

/-- Rounding to two decimal places, modelling the f-string format `:.2f`
of line 30 (round half-up on rationals in place of binary float
rounding; both are monotone and agree off exact half-cents). -/
def round2 (q : ℚ) : ℚ := ((round (q * 100) : ℤ) : ℚ) / 100

/-- Decimal rendering of a nonnegative value with exactly two decimal
places, modelling the f-string `val:.2f` of line 30. -/
def format2 (q : ℚ) : String :=
  let n := (round (q * 100)).toNat
  toString (n / 100) ++ "." ++ (if n % 100 < 10 then "0" else "") ++ toString (n % 100)

/-- real_speed (lines 18-30): render the scaled value with two decimals
and the selected unit. -/
def real_speed (x : ℚ) : String :=
  format2 (real_speed_core x).1 ++ " " ++ speedUnits.getD (real_speed_core x).2 ("B/s")

/-- The backslash unescaping of parse_libraryfolders_vdf
(lines 175, 182): replace escaped double backslashes by single ones. -/
def unescape (s : String) : String := s.replace ("\\\\") ("\\")

/-- The candidate library paths accumulated by parse_libraryfolders_vdf
before de-duplication (lines 163-185): the capture groups of the
new-format `"path" "..."` regex pass, then those of the old-format
`"<digits>" "..."` pass, each unescaped, resolved through
os.path.realpath (abstracted as `rp`) and kept only when nonempty and an
existing directory (abstracted as `isdir`). -/
def vdf_candidates (rp : String → String) (isdir : String → Bool)
    (newM oldM : List String) : List String :=
  ((newM.map (fun s => rp (unescape s))).filter (fun p => !(p == "") && isdir p)) ++
  ((oldM.map (fun s => rp (unescape s))).filter (fun p => !(p == "") && isdir p))

/-- The de-duplication loop of parse_libraryfolders_vdf (lines 187-193):
walk the list keeping each path not yet in `seen`, in order. -/
def dedupFS : List String → List String → List String
  | _, [] => []
  | seen, p :: rest =>
    if p ∈ seen then dedupFS seen rest else p :: dedupFS (p :: seen) rest

/-- parse_libraryfolders_vdf (lines 162-195) over the abstracted regex
matches and filesystem: filter and resolve both passes, then remove
duplicates preserving first-seen order. -/
def parse_libraryfolders_vdf (rp : String → String) (isdir : String → Bool)
    (newM oldM : List String) : List String :=
  dedupFS [] (vdf_candidates rp isdir newM oldM)

/-- Specification-side statement of first-seen-order de-duplication,
written from the spec's words: keep every element the first time it is
seen, dropping later repeats. -/
def firstSeenSpec (l : List String) : List String :=
  l.foldl (fun acc x => if x ∈ acc then acc else acc ++ [x]) []

/-- Dictionary lookup over parsed key/value lines, modelling
parse_key_value_file's dict construction plus kv.get (lines 148-159,
232-233): later lines with the same key overwrite earlier ones. -/
def kvGet (kvs : List (String × String)) (k : String) : Option String :=
  kvs.foldl (fun acc p => if p.1 = k then some p.2 else acc) none

/-- resolve_app_name (lines 226-237): scan the steamapps folders in
order; where the manifest file exists, read its "name" key and return it
when non-empty (Python's `if name:`), otherwise keep scanning; fall back
to "AppID <id>". -/
def resolve_app_name (appid : ℕ) : List SteamappsFolder → String
  | [] => "AppID " ++ toString appid
  | sa :: rest =>
    match sa.manifest with
    | some kvs =>
      match kvGet kvs ("name") with
      | some n => if n = "" then resolve_app_name appid rest else n
      | none => resolve_app_name appid rest
    | none => resolve_app_name appid rest

/-- The usable display name a single steamapps folder offers: its
manifest's "name" value when present and non-empty. -/
def usableName (sa : SteamappsFolder) : Option String :=
  match sa.manifest with
  | some kvs =>
    match kvGet kvs ("name") with
    | some n => if n = "" then none else some n
    | none => none
  | none => none

/-- Decimal accumulator over a character list: `none` as soon as a
non-digit appears. -/
def listNatAux : List Char → ℕ → Option ℕ
  | [], acc => some acc
  | c :: cs, acc =>
    if c.isDigit then listNatAux cs (acc * 10 + (c.toNat - 48)) else none

/-- Python's `entry.name.isdigit()` guard combined with
`int(entry.name)` (lines 250-251): `some` exactly when the name is a
non-empty string of decimal digits, returning its numeric value. -/
def nameToNat? (s : String) : Option ℕ :=
  if s.data = [] then none else listNatAux s.data 0

/-- The (mtime, appid) pair one scandir entry contributes in
detect_appid_from_downloading_dir (lines 250-256): only directories with
purely numeric names count, and a failing stat yields mtime 0.0 — the
entry is still appended. -/
def entryPair (en : EntryScan) : Option (ℚ × ℕ) :=
  if en.isDirNoFollow then
    match nameToNat? en.name with
    | some appid => some (en.statResult.getD 0, appid)
    | none => none
  else none

/-- The pairs one steamapps folder contributes (lines 243-258): nothing
when the "downloading" subdirectory is missing or os.scandir fails. -/
def libPairs (lib : LibScan) : List (ℚ × ℕ) :=
  if lib.hasDownloading ∧ lib.scanOk then lib.entries.filterMap entryPair else []

/-- The candidates list accumulated across all steamapps folders
(lines 241-258). -/
def collectCandidates (libs : List LibScan) : List (ℚ × ℕ) :=
  (libs.map libPairs).join

/-- Strict lexicographic comparison of (mtime, appid) pairs — the tuple
order Python's sort uses on line 263. -/
abbrev lexLt (a b : ℚ × ℕ) : Prop := a.1 < b.1 ∨ (a.1 = b.1 ∧ a.2 < b.2)

/-- Non-strict lexicographic comparison of (mtime, appid) pairs. -/
abbrev lexLe (a b : ℚ × ℕ) : Prop := a.1 < b.1 ∨ (a.1 = b.1 ∧ a.2 ≤ b.2)

/-- Lexicographic maximum of two (mtime, appid) pairs. -/
def pmax (a b : ℚ × ℕ) : ℚ × ℕ := if lexLt a b then b else a

/-- Maximum of the candidates list, modelling
`candidates.sort(reverse=True); candidates[0]` (lines 263-264): the head
of the descending tuple sort is the lexicographic maximum. -/
def maxCand : List (ℚ × ℕ) → Option (ℚ × ℕ)
  | [] => none
  | c :: cs => some (cs.foldl pmax c)

/-- detect_appid_from_downloading_dir (lines 240-264): collect
(mtime, appid) pairs over all folders; `none` when empty, otherwise the
appid of the lexicographically greatest pair. -/
def detect_appid_from_downloading_dir (libs : List LibScan) : Option ℕ :=
  (maxCand (collectCandidates libs)).map (fun c => c.2)

/-- The throughput measurement of one tick (lines 338-353): given the
carried last_size, last_appid and last_time, the current candidate appid,
the measured size of its downloading folder when resolvable, the current
time and the log-derived status, produce (speed_bps, new last_size,
possibly reclassified status).  The zero-delta rule (lines 347-348)
fires only when a previous size exists for the same appid. -/
def measure (last_size last_appid : Option ℕ) (last_time : ℚ) (appid : ℕ)
    (size? : Option ℕ) (now : ℚ) (s0 : Status) : ℚ × Option ℕ × Status :=
  match size?, last_size with
  | some cur, some ls =>
    if last_appid = some appid then
      (((cur : ℚ) - (ls : ℚ)) / max (1 / 1000000) (now - last_time),
       some cur,
       if cur = ls ∧ s0 = Status.unknown then Status.paused else s0)
    else (0, some cur, s0)
  | some cur, none => (0, some cur, s0)
  | none, _ => (0, none, s0)

/-- The zero_streak update (lines 357-360): increment while the absolute
speed is below 1024 bytes per second, otherwise reset to zero. -/
def streakUpdate (speed : ℚ) (zs : ℕ) : ℕ := if |speed| < 1024 then zs + 1 else 0

/-- The hysteresis override (lines 362-364): two or more consecutive
low-speed ticks force the status to paused. -/
def applyHysteresis (zs : ℕ) (s : Status) : Status :=
  if 2 ≤ zs then Status.paused else s

/-- The final zero-speed rule (lines 366-367): an effectively zero speed
turns a still-unknown status into paused. -/
def applyZeroSpeed (speed : ℚ) (s : Status) : Status :=
  if |speed| < 1 ∧ s = Status.unknown then Status.paused else s

/-- One iteration of the monitoring loop of monitor_steam_downloads
(lines 322-370): detect the candidate appid; when absent clear last_size
and last_appid and emit nothing (lines 325-330, leaving last_time and
zero_streak untouched); otherwise measure, update the streak, apply the
hysteresis and zero-speed rules in source order, store the new state and
emit a sample. -/
def tick (st : MonState) (e : TickEnv) : MonState × Option DownloadInfo :=
  match detect_appid_from_downloading_dir e.libs with
  | none => ({ st with last_size := none, last_appid := none }, none)
  | some appid =>
    let s0 := e.hintStatus.getD Status.unknown
    let m := measure st.last_size st.last_appid st.last_time appid e.dlSize e.now s0
    let zs := streakUpdate m.1 st.zero_streak
    let s3 := applyZeroSpeed m.1 (applyHysteresis zs m.2.2)
    (⟨m.2.1, some appid, e.now, zs⟩, some ⟨appid, e.name, s3, m.1⟩)

/-- Several consecutive iterations of the monitoring loop. -/
def run : MonState → List TickEnv → MonState × List (Option DownloadInfo)
  | st, [] => (st, [])
  | st, e :: es =>
    let r := tick st e
    let rest := run r.1 es
    (rest.1, r.2 :: rest.2)

/-- A steamapps folder whose downloading directory contains the single
in-progress app 570, modified at time 5. -/
def dotaLib : LibScan := ⟨true, true, [⟨true, "570", some 5⟩]⟩

/-- Concrete state for the hysteresis example: one low-speed tick already
recorded. -/
def c1st : MonState := ⟨none, none, 0, 1⟩

/-- Concrete tick observation for the hysteresis example: app 570
detected, log hints downloading, measured size 100 at time 60. -/
def c1env : TickEnv := ⟨[dotaLib], some Status.downloading, some 100, "Dota 2", 60⟩

/-- Expected state after the hysteresis example tick. -/
def c1st2 : MonState := ⟨some 100, some 570, 60, 2⟩

/-- Expected sample from the hysteresis example tick. -/
def c1samp : DownloadInfo := ⟨570, "Dota 2", Status.paused, 0⟩

/-- Fresh state for the zero-delta example. -/
def c2st0 : MonState := ⟨none, none, 0, 0⟩

/-- First tick of the zero-delta example: size 100 at time 0, no hint. -/
def c2e1 : TickEnv := ⟨[dotaLib], none, some 100, "Dota 2", 0⟩

/-- Second tick of the zero-delta example: same size 100 at time 60,
no hint. -/
def c2e2 : TickEnv := ⟨[dotaLib], none, some 100, "Dota 2", 60⟩

/-- Expected sample from the second zero-delta tick. -/
def c2samp : DownloadInfo := ⟨570, "Dota 2", Status.paused, 0⟩

/-- Library holding app 570 with the older modification time 1. -/
def c3libA : LibScan := ⟨true, true, [⟨true, "570", some 1⟩]⟩

/-- Library holding app 571 with the newer modification time 2. -/
def c3libB : LibScan := ⟨true, true, [⟨true, "571", some 2⟩]⟩

/-- A library whose only in-progress entry 570 fails to stat. -/
def c4lib : LibScan := ⟨true, true, [⟨true, "570", none⟩]⟩

/-- A library whose only in-progress entry 42 fails to stat. -/
def c4wlib : LibScan := ⟨true, true, [⟨true, "42", none⟩]⟩

/-- The failing-stat entry of c4wlib. -/
def c4wen : EntryScan := ⟨true, "42", none⟩

/-- State populated by earlier ticks, used in the no-candidate example. -/
def c8st : MonState := ⟨some 50, some 570, 0, 7⟩

/-- A tick observation with no downloading directory anywhere. -/
def c8env : TickEnv := ⟨[], none, none, "", 60⟩

/-- Two consecutive no-candidate observations. -/
def c8es : List TickEnv := [c8env, c8env]

/-- State with one accumulated low-speed tick, before a detection gap. -/
def c9st : MonState := ⟨some 50, some 570, 0, 1⟩

/-- The gap observation: no candidate download found. -/
def c9gap : TickEnv := ⟨[], none, none, "", 60⟩

/-- The post-gap observation: app 570 detected again with a downloading
log hint and measured size 100. -/
def c9e : TickEnv := ⟨[dotaLib], some Status.downloading, some 100, "Dota 2", 120⟩

/-- Expected sample after the gap: paused despite the downloading hint. -/
def c9samp : DownloadInfo := ⟨570, "Dota 2", Status.paused, 0⟩

lemma mem_dedupFS (l : List String) : ∀ (seen : List String) (x : String),
    x ∈ dedupFS seen l ↔ x ∈ l ∧ x ∉ seen := by
  induction l with
  | nil => intro seen x; simp [dedupFS]
  | cons p rest ih =>
    intro seen x
    by_cases hp : p ∈ seen
    · rw [dedupFS, if_pos hp, ih]
      simp only [List.mem_cons]
      constructor
      · rintro ⟨hx, hn⟩; exact ⟨Or.inr hx, hn⟩
      · rintro ⟨hx | hx, hn⟩
        · exact absurd (hx ▸ hp) hn
        · exact ⟨hx, hn⟩
    · rw [dedupFS, if_neg hp]
      simp only [List.mem_cons, ih, List.mem_cons]
      constructor
      · rintro (rfl | ⟨hx, hn⟩)
        · exact ⟨Or.inl rfl, hp⟩
        · exact ⟨Or.inr hx, fun hs => hn (Or.inr hs)⟩
      · rintro ⟨hx | hx, hn⟩
        · exact Or.inl hx
        · by_cases hxp : x = p
          · exact Or.inl hxp
          · exact Or.inr ⟨hx, fun hs => by
              rcases hs with hs | hs
              · exact hxp hs
              · exact hn hs⟩

lemma nodup_dedupFS (l : List String) : ∀ seen : List String, (dedupFS seen l).Nodup := by
  induction l with
  | nil => intro seen; simp [dedupFS]
  | cons p rest ih =>
    intro seen
    by_cases hp : p ∈ seen
    · rw [dedupFS, if_pos hp]; exact ih seen
    · rw [dedupFS, if_neg hp]
      refine List.Nodup.cons ?_ (ih (p :: seen))
      intro hmem
      exact ((mem_dedupFS rest (p :: seen) p).mp hmem).2 (List.mem_cons_self p seen)

lemma dedupFS_eq_foldl (l : List String) : ∀ (seen acc : List String),
    (∀ x, x ∈ seen ↔ x ∈ acc) →
    acc ++ dedupFS seen l = l.foldl (fun ac x => if x ∈ ac then ac else ac ++ [x]) acc := by
  induction l with
  | nil => intro seen acc _; simp [dedupFS]
  | cons p rest ih =>
    intro seen acc hinv
    by_cases hp : p ∈ seen
    · rw [dedupFS, if_pos hp, List.foldl_cons, if_pos ((hinv p).mp hp)]
      exact ih seen acc hinv
    · rw [dedupFS, if_neg hp, List.foldl_cons,
        if_neg (fun hc => hp ((hinv p).mpr hc))]
      have step : acc ++ p :: dedupFS (p :: seen) rest
          = (acc ++ [p]) ++ dedupFS (p :: seen) rest := by simp
      rw [step]
      refine ih (p :: seen) (acc ++ [p]) ?_
      intro x
      simp only [List.mem_cons, List.mem_append, List.mem_singleton, hinv x]
      tauto

lemma dedupFS_of_nodup (l : List String) : ∀ seen : List String,
    l.Nodup → (∀ x ∈ l, x ∉ seen) → dedupFS seen l = l := by
  induction l with
  | nil => intro seen _ _; rfl
  | cons p rest ih =>
    intro seen hnd hs
    rw [dedupFS, if_neg (hs p (List.mem_cons_self p rest))]
    congr 1
    refine ih (p :: seen) (List.Nodup.of_cons hnd) ?_
    intro x hx
    intro hc
    rw [List.mem_cons] at hc
    rcases hc with hc | hc
    · exact (List.nodup_cons.mp hnd).1 (hc ▸ hx)
    · exact hs x (List.mem_cons_of_mem p hx) hc

/-- Claim C6: parse_libraryfolders_vdf de-duplicates idempotently and
order-preservingly: for every input (over both the "path"-keyed and the
integer-keyed regex passes, any realpath resolution and any directory
predicate) each distinct resolved existing path appears exactly once in
the output; the output equals the spec-side first-seen-order
de-duplication of the candidate list; and de-duplicating the output again
changes nothing. -/
theorem parse_vdf_dedup_spec (rp : String → String) (isdir : String → Bool)
    (newM oldM : List String) :
    (parse_libraryfolders_vdf rp isdir newM oldM).Nodup ∧
    (∀ p, p ∈ parse_libraryfolders_vdf rp isdir newM oldM ↔
      p ∈ vdf_candidates rp isdir newM oldM) ∧
    parse_libraryfolders_vdf rp isdir newM oldM
      = firstSeenSpec (vdf_candidates rp isdir newM oldM) ∧
    dedupFS [] (parse_libraryfolders_vdf rp isdir newM oldM)
      = parse_libraryfolders_vdf rp isdir newM oldM := by
  refine ⟨nodup_dedupFS _ [], ?_, ?_, ?_⟩
  · intro p
    rw [parse_libraryfolders_vdf, mem_dedupFS]
    simp
  · rw [parse_libraryfolders_vdf, firstSeenSpec]
    have h := dedupFS_eq_foldl (vdf_candidates rp isdir newM oldM) [] [] (by simp)
    simpa using h
  · exact dedupFS_of_nodup _ [] (nodup_dedupFS _ []) (by simp)

/-- Claim C5, counterexample: with two libraries where the first holds a
manifest for appid 570 without a usable "name" key and the second holds
one naming it, resolve_app_name returns the second library's name, not
the synthesized fallback that the claim requires once "the first manifest
found lacks a name key". -/
theorem resolve_name_counterexample :
    resolve_app_name 570
        [⟨some [("installdir", "dota 2 beta")]⟩, ⟨some [("name", "Dota 2")]⟩]
      = "Dota 2" ∧
    ("Dota 2" : String) ≠ "AppID " ++ toString 570 := by
  constructor
  · rfl
  · decide

/-- Claim C5 as amended: resolve_app_name scans the libraries in order
and returns the "name" value of the first manifest that has a non-empty
one; manifests that are absent or lack a usable name are skipped and
scanning continues; when no library yields a name the synthesized
fallback "AppID <id>" is returned — the operation always returns a
string and never fails. -/
theorem resolve_app_name_first_usable (appid : ℕ) (folders : List SteamappsFolder) :
    resolve_app_name appid folders
      = ((folders.filterMap usableName).head?).getD ("AppID " ++ toString appid) := by
  induction folders with
  | nil => rfl
  | cons sa rest ih =>
    rcases hm : sa.manifest with _ | kvs
    · simp [resolve_app_name, hm, ih, List.filterMap_cons, usableName]
    · rcases hg : kvGet kvs ("name") with _ | n
      · simp [resolve_app_name, hm, hg, ih, List.filterMap_cons, usableName]
      · by_cases hn : n = ""
        · simp [resolve_app_name, hm, hg, hn, ih, List.filterMap_cons, usableName]
        · simp [resolve_app_name, hm, hg, hn, List.filterMap_cons, usableName]

lemma toLex_pmax (a b : ℚ × ℕ) : toLex (pmax a b) = max (toLex a) (toLex b) := by
  unfold pmax
  by_cases h : lexLt a b
  · rw [if_pos h]
    exact (max_eq_right ((Prod.Lex.lt_iff a b).mpr h).le).symm
  · rw [if_neg h]
    have hnot : ¬ toLex a < toLex b := fun hc => h ((Prod.Lex.lt_iff a b).mp hc)
    exact (max_eq_left (le_of_not_lt hnot)).symm

lemma pmax_choice (a b : ℚ × ℕ) : pmax a b = a ∨ pmax a b = b := by
  unfold pmax
  by_cases h : lexLt a b
  · rw [if_pos h]; exact Or.inr rfl
  · rw [if_neg h]; exact Or.inl rfl

lemma foldl_pmax_mem (cs : List (ℚ × ℕ)) : ∀ c : ℚ × ℕ,
    cs.foldl pmax c = c ∨ cs.foldl pmax c ∈ cs := by
  induction cs with
  | nil => intro c; exact Or.inl rfl
  | cons b cs ih =>
    intro c
    rw [List.foldl_cons]
    rcases ih (pmax c b) with h | h
    · rcases pmax_choice c b with hc | hc
      · exact Or.inl (h.trans hc)
      · rw [h, hc]
        exact Or.inr (List.mem_cons_self b cs)
    · exact Or.inr (List.mem_cons_of_mem b h)

lemma le_foldl_pmax (cs : List (ℚ × ℕ)) : ∀ (c d : ℚ × ℕ), d = c ∨ d ∈ cs →
    toLex d ≤ toLex (cs.foldl pmax c) := by
  induction cs with
  | nil =>
    intro c d h
    rcases h with h | h
    · exact le_of_eq (by rw [h, List.foldl_nil])
    · cases h
  | cons b cs ih =>
    intro c d h
    rw [List.foldl_cons]
    have hstep : toLex d ≤ toLex (pmax c b) ∨ d ∈ cs := by
      rcases h with h | h
      · left
        rw [h, toLex_pmax]
        exact le_max_left _ _
      · rw [List.mem_cons] at h
        rcases h with h | h
        · left
          rw [h, toLex_pmax]
          exact le_max_right _ _
        · right; exact h
    rcases hstep with h | h
    · exact le_trans h (ih (pmax c b) (pmax c b) (Or.inl rfl))
    · exact ih (pmax c b) d (Or.inr h)

lemma maxCand_spec (l : List (ℚ × ℕ)) (hne : l ≠ []) :
    ∃ m, maxCand l = some m ∧ m ∈ l ∧ ∀ d ∈ l, toLex d ≤ toLex m := by
  rcases l with _ | ⟨c, cs⟩
  · exact absurd rfl hne
  · refine ⟨cs.foldl pmax c, rfl, ?_, ?_⟩
    · rcases foldl_pmax_mem cs c with h | h
      · rw [h]; exact List.mem_cons_self c cs
      · exact List.mem_cons_of_mem c h
    · intro d hd
      rw [List.mem_cons] at hd
      rcases hd with rfl | hd
      · exact le_foldl_pmax cs d d (Or.inl rfl)
      · exact le_foldl_pmax cs c d (Or.inr hd)

lemma maxCand_eq_of_max (l : List (ℚ × ℕ)) (c : ℚ × ℕ)
    (hmem : c ∈ l) (hmax : ∀ d ∈ l, lexLe d c) : maxCand l = some c := by
  obtain ⟨m, heq, hm, hub⟩ := maxCand_spec l (List.ne_nil_of_mem hmem)
  have h1 : toLex m ≤ toLex c := (Prod.Lex.le_iff m c).mpr (hmax m hm)
  have h2 : toLex c ≤ toLex m := hub c hmem
  have : toLex m = toLex c := le_antisymm h1 h2
  rw [heq, toLex.injective this]

lemma maxCand_perm {l₁ l₂ : List (ℚ × ℕ)} (hp : l₁.Perm l₂) :
    maxCand l₁ = maxCand l₂ := by
  rcases l₁ with _ | ⟨c, cs⟩
  · rw [List.nil_perm] at hp
    rw [hp]
  · have hne₂ : l₂ ≠ [] := by
      intro hc
      rw [hc, List.perm_nil] at hp
      cases hp
    obtain ⟨m₁, he₁, hm₁, hub₁⟩ := maxCand_spec (c :: cs) (by simp)
    obtain ⟨m₂, he₂, hm₂, hub₂⟩ := maxCand_spec l₂ hne₂
    have h1 : toLex m₁ ≤ toLex m₂ := hub₂ m₁ (hp.mem_iff.mp hm₁)
    have h2 : toLex m₂ ≤ toLex m₁ := hub₁ m₂ (hp.mem_iff.mpr hm₂)
    rw [he₁, he₂, toLex.injective (le_antisymm h1 h2)]

/-- Claim C3: detect_appid_from_downloading_dir selects the appid of the
candidate pair that is greatest in the (modification time, appid)
lexicographic order — so with modification times T1 < T2 the appid paired
with T2 wins, with the numeric appid deciding ties — and the selection is
invariant under any permutation of the collected candidates, hence
independent of the order in which libraries or entries were scanned. -/
theorem detect_selects_max_mtime (libs libs2 : List LibScan) (c : ℚ × ℕ)
    (hmem : c ∈ collectCandidates libs)
    (hmax : ∀ d ∈ collectCandidates libs, lexLe d c)
    (hperm : (collectCandidates libs).Perm (collectCandidates libs2)) :
    detect_appid_from_downloading_dir libs = some c.2 ∧
    detect_appid_from_downloading_dir libs2 = some c.2 := by
  have h1 : detect_appid_from_downloading_dir libs = some c.2 := by
    rw [detect_appid_from_downloading_dir, maxCand_eq_of_max _ c hmem hmax]
    rfl
  refine ⟨h1, ?_⟩
  rw [detect_appid_from_downloading_dir, ← maxCand_perm hperm,
    maxCand_eq_of_max _ c hmem hmax]
  rfl

/-- Claim C3 witness: two libraries holding apps 570 (mtime 1) and 571
(mtime 2); either scan order selects 571. -/
theorem detect_selects_max_mtime_witness :
    detect_appid_from_downloading_dir [c3libA, c3libB] = some 571 ∧
    detect_appid_from_downloading_dir [c3libB, c3libA] = some 571 :=
  detect_selects_max_mtime [c3libA, c3libB] [c3libB, c3libA] ((2 : ℚ), 571)
    (by decide) (by decide) (by decide)

/-- Claim C4, counterexample: a numeric child directory whose stat call
fails is not skipped — with mtime defaulted to 0.0 it still enters the
candidate list, and when it is the only candidate it is selected. -/
theorem stat_failed_entry_selected :
    detect_appid_from_downloading_dir [c4lib] = some 570 := by decide

/-- Claim C4 as amended: a stat failure on a numeric child directory is
ignored and not fatal, but the entry is not skipped: it contributes a
candidate pair with modification time 0.0, and it is selected when it is
the only candidate. -/
theorem stat_failed_entry_contributes (lib : LibScan) (en : EntryScan) (a : ℕ)
    (h1 : lib.hasDownloading = true) (h2 : lib.scanOk = true)
    (h3 : en ∈ lib.entries) (h4 : en.isDirNoFollow = true)
    (h5 : en.statResult = none) (h6 : nameToNat? en.name = some a) :
    ((0 : ℚ), a) ∈ collectCandidates [lib] ∧
    (lib.entries = [en] → detect_appid_from_downloading_dir [lib] = some a) := by
  have hpair : entryPair en = some (0, a) := by
    rw [entryPair, if_pos h4, h6, h5]
    rfl
  have hcol : collectCandidates [lib] = lib.entries.filterMap entryPair := by
    rw [collectCandidates, List.map_singleton, libPairs, if_pos ⟨h1, h2⟩]
    simp
  constructor
  · rw [hcol, List.mem_filterMap]
    exact ⟨en, h3, hpair⟩
  · intro hone
    rw [detect_appid_from_downloading_dir, hcol, hone, List.filterMap_cons, hpair]
    rfl

/-- Claim C4 witness for the amended statement: a library whose only
entry 42 fails to stat contributes (0, 42) and is selected. -/
theorem stat_failed_entry_contributes_witness :
    ((0 : ℚ), 42) ∈ collectCandidates [c4wlib] ∧
    detect_appid_from_downloading_dir [c4wlib] = some 42 := by
  have h := stat_failed_entry_contributes c4wlib c4wen 42 rfl rfl (by decide) rfl rfl
    (by decide)
  exact ⟨h.1, h.2 rfl⟩

lemma tick_none (st : MonState) (e : TickEnv)
    (h : detect_appid_from_downloading_dir e.libs = none) :
    tick st e = ({ st with last_size := none, last_appid := none }, none) := by
  unfold tick
  rw [h]

lemma tick_some (st : MonState) (e : TickEnv) (a : ℕ)
    (h : detect_appid_from_downloading_dir e.libs = some a) :
    tick st e =
      (⟨(measure st.last_size st.last_appid st.last_time a e.dlSize e.now
          (e.hintStatus.getD Status.unknown)).2.1, some a, e.now,
        streakUpdate (measure st.last_size st.last_appid st.last_time a e.dlSize e.now
          (e.hintStatus.getD Status.unknown)).1 st.zero_streak⟩,
       some ⟨a, e.name,
         applyZeroSpeed
           (measure st.last_size st.last_appid st.last_time a e.dlSize e.now
             (e.hintStatus.getD Status.unknown)).1
           (applyHysteresis
             (streakUpdate (measure st.last_size st.last_appid st.last_time a e.dlSize e.now
               (e.hintStatus.getD Status.unknown)).1 st.zero_streak)
             (measure st.last_size st.last_appid st.last_time a e.dlSize e.now
               (e.hintStatus.getD Status.unknown)).2.2),
         (measure st.last_size st.last_appid st.last_time a e.dlSize e.now
           (e.hintStatus.getD Status.unknown)).1⟩) := by
  unfold tick
  rw [h]

lemma applyHysteresis_of_two {zs : ℕ} (h : 2 ≤ zs) (s : Status) :
    applyHysteresis zs s = Status.paused := by
  rw [applyHysteresis, if_pos h]

lemma applyZeroSpeed_paused (speed : ℚ) :
    applyZeroSpeed speed Status.paused = Status.paused := by
  rw [applyZeroSpeed, if_neg]
  rintro ⟨-, hc⟩
  cases hc

lemma applyHysteresis_paused (zs : ℕ) :
    applyHysteresis zs Status.paused = Status.paused := by
  rw [applyHysteresis]
  split <;> rfl

lemma streakUpdate_zero (zs : ℕ) : streakUpdate 0 zs = zs + 1 := by
  have h : |(0 : ℚ)| < 1024 := by rw [abs_zero]; norm_num
  rw [streakUpdate, if_pos h]

lemma measure_no_size (ls la : Option ℕ) (lt : ℚ) (a : ℕ) (now : ℚ) (s0 : Status) :
    measure ls la lt a none now s0 = (0, none, s0) := by
  rcases ls with _ | l <;> rfl

lemma measure_first (la : Option ℕ) (lt : ℚ) (a cur : ℕ) (now : ℚ) (s0 : Status) :
    measure none la lt a (some cur) now s0 = (0, some cur, s0) := rfl

lemma measure_delta (ls : ℕ) (lt : ℚ) (a cur : ℕ) (now : ℚ) (s0 : Status) :
    measure (some ls) (some a) lt a (some cur) now s0
      = (((cur : ℚ) - (ls : ℚ)) / max (1 / 1000000) (now - lt), some cur,
         if cur = ls ∧ s0 = Status.unknown then Status.paused else s0) := by
  simp only [measure, eq_self_iff_true, if_true]

lemma measure_keeps_size (ls la : Option ℕ) (lt : ℚ) (a cur : ℕ) (now : ℚ) (s0 : Status) :
    (measure ls la lt a (some cur) now s0).2.1 = some cur := by
  rcases ls with _ | l
  · rfl
  · simp only [measure]
    split <;> rfl

lemma tick_same_size (st1 : MonState) (e : TickEnv) (a n : ℕ)
    (hdet : detect_appid_from_downloading_dir e.libs = some a)
    (hsize : e.dlSize = some n) (hhint : e.hintStatus = none)
    (hls : st1.last_size = some n) (hla : st1.last_appid = some a) :
    (tick st1 e).2 = some ⟨a, e.name, Status.paused, 0⟩ := by
  rw [tick_some st1 e a hdet]
  dsimp only
  rw [hls, hla, hsize, hhint, Option.getD_none,
    measure_delta n st1.last_time a n e.now Status.unknown]
  dsimp only
  have h0 : ((n : ℚ) - (n : ℚ)) / max (1 / 1000000) (e.now - st1.last_time) = 0 := by
    rw [sub_self, zero_div]
  rw [h0, if_pos (⟨rfl, rfl⟩ : n = n ∧ Status.unknown = Status.unknown),
    applyHysteresis_paused, applyZeroSpeed_paused]

lemma tick_after_reset (st1 : MonState) (e : TickEnv) (a n : ℕ)
    (hdet : detect_appid_from_downloading_dir e.libs = some a)
    (hsize : e.dlSize = some n) (hls : st1.last_size = none) :
    (tick st1 e).2 = some ⟨a, e.name,
      applyZeroSpeed 0 (applyHysteresis (st1.zero_streak + 1)
        (e.hintStatus.getD Status.unknown)), 0⟩ := by
  rw [tick_some st1 e a hdet]
  dsimp only
  rw [hls, hsize, measure_first st1.last_appid st1.last_time a n e.now _]
  dsimp only
  rw [streakUpdate_zero]

/-- Claim C1: whenever a tick detects a candidate and its updated
consecutive-low-speed counter has reached 2, the emitted sample's status
is paused, regardless of the log hint or any earlier classification. -/
theorem hysteresis_forces_paused (st : MonState) (e : TickEnv) (st2 : MonState)
    (samp : DownloadInfo) (heq : tick st e = (st2, some samp))
    (hzs : 2 ≤ st2.zero_streak) : samp.status = Status.paused := by
  rcases hd : detect_appid_from_downloading_dir e.libs with _ | a
  · rw [tick_none st e hd] at heq
    exact absurd (congrArg Prod.snd heq) (by simp)
  · rw [tick_some st e a hd] at heq
    injection heq with hst hsamp
    injection hsamp with hsamp
    subst hst
    subst hsamp
    dsimp only at hzs ⊢
    rw [applyHysteresis_of_two hzs, applyZeroSpeed_paused]

/-- Claim C1 witness: with one low-speed tick already recorded, a tick
observing app 570 with a first-baseline measurement (speed 0) and a
downloading log hint reaches streak 2 and is forced to paused. -/
theorem hysteresis_forces_paused_witness :
    tick c1st c1env = (c1st2, some c1samp) ∧ 2 ≤ c1st2.zero_streak ∧
    c1samp.status = Status.paused := by
  have hdet : detect_appid_from_downloading_dir c1env.libs = some 570 := by decide
  have heq : tick c1st c1env = (c1st2, some c1samp) := by
    rw [tick_some c1st c1env 570 hdet]
    norm_num [c1st, c1env, c1st2, c1samp, measure, streakUpdate, applyHysteresis,
      applyZeroSpeed, Option.getD, abs_zero]
  exact ⟨heq, by norm_num [c1st2],
    hysteresis_forces_paused c1st c1env c1st2 c1samp heq (by norm_num [c1st2])⟩

/-- Claim C2: two consecutive ticks observing the same appid with a
resolvable downloading directory of identical measured size, and positive
elapsed time, yield a throughput of exactly 0; with no log hint on the
second tick its emitted status is paused. -/
theorem zero_delta_paused (st : MonState) (e1 e2 : TickEnv) (a n : ℕ)
    (samp : DownloadInfo)
    (h1 : detect_appid_from_downloading_dir e1.libs = some a)
    (h2 : e1.dlSize = some n)
    (h3 : detect_appid_from_downloading_dir e2.libs = some a)
    (h4 : e2.dlSize = some n)
    (h5 : e2.hintStatus = none)
    (h6 : e1.now < e2.now)
    (h7 : (tick (tick st e1).1 e2).2 = some samp) :
    samp.speed_bps = 0 ∧ samp.status = Status.paused := by
  have hls : (tick st e1).1.last_size = some n := by
    rw [tick_some st e1 a h1]
    dsimp only
    rw [h2]
    exact measure_keeps_size st.last_size st.last_appid st.last_time a n e1.now _
  have hla : (tick st e1).1.last_appid = some a := by
    rw [tick_some st e1 a h1]
  have hmain := tick_same_size (tick st e1).1 e2 a n h3 h4 h5 hls hla
  rw [h7] at hmain
  injection hmain with hmain
  subst hmain
  exact ⟨rfl, rfl⟩

/-- Claim C2 witness: starting fresh, two ticks observing app 570 with
size 100 at times 0 and 60 and no log hint produce speed 0 and status
paused on the second tick. -/
theorem zero_delta_paused_witness :
    (tick (tick c2st0 c2e1).1 c2e2).2 = some c2samp ∧
    c2samp.speed_bps = 0 ∧ c2samp.status = Status.paused := by
  have hdet : detect_appid_from_downloading_dir [dotaLib] = some 570 := by decide
  have heq : (tick (tick c2st0 c2e1).1 c2e2).2 = some c2samp := by
    norm_num [tick, hdet, c2st0, c2e1, c2e2, c2samp, measure, streakUpdate,
      applyHysteresis, applyZeroSpeed, Option.getD, abs_zero]
  exact ⟨heq,
    zero_delta_paused c2st0 c2e1 c2e2 570 100 c2samp rfl rfl rfl rfl rfl
      (by norm_num [c2e1, c2e2]) heq⟩

/-- Claim C8: on every tick where no candidate application is detected no
sample is emitted and last_appid and last_size are cleared; across a run
of such ticks every emitted output is absent and the fields end (and
stay) cleared — a normal outcome, not an error. -/
theorem no_candidate_clears_state (st : MonState) (es : List TickEnv)
    (h : ∀ e ∈ es, detect_appid_from_downloading_dir e.libs = none) :
    (run st es).2 = es.map (fun _ => none) ∧
    (∀ e ∈ es, ∀ s : MonState, (tick s e).2 = none ∧
      (tick s e).1.last_size = none ∧ (tick s e).1.last_appid = none) ∧
    (es ≠ [] → (run st es).1.last_size = none ∧ (run st es).1.last_appid = none) := by
  refine ⟨?_, ?_, ?_⟩
  · induction es generalizing st with
    | nil => rfl
    | cons e es ih =>
      rw [run, List.map_cons]
      have he := tick_none st e (h e (List.mem_cons_self e es))
      rw [he]
      dsimp only
      rw [ih ({ st with last_size := none, last_appid := none })
        (fun x hx => h x (List.mem_cons_of_mem e hx))]
  · intro e he s
    rw [tick_none s e (h e he)]
    exact ⟨rfl, rfl, rfl⟩
  · induction es generalizing st with
    | nil => intro hc; exact absurd rfl hc
    | cons e es ih =>
      intro _
      rw [run]
      have he := tick_none st e (h e (List.mem_cons_self e es))
      rw [he]
      dsimp only
      rcases es with _ | ⟨e2, es⟩
      · exact ⟨rfl, rfl⟩
      · exact ih ({ st with last_size := none, last_appid := none })
          (fun x hx => h x (List.mem_cons_of_mem e hx)) (by simp)

/-- Claim C8 witness: two consecutive no-candidate ticks starting from a
populated state emit nothing and leave the appid/size fields cleared. -/
theorem no_candidate_clears_state_witness :
    (run c8st c8es).2 = c8es.map (fun _ => none) ∧
    (run c8st c8es).1.last_size = none ∧ (run c8st c8es).1.last_appid = none := by
  have h := no_candidate_clears_state c8st c8es (by decide)
  exact ⟨h.1, (h.2.2 (by decide)).1, (h.2.2 (by decide)).2⟩

/-- Claim C9: a tick with no candidate leaves zero_streak unchanged
rather than resetting it, so with at least one low-speed tick accumulated
before a gap, the first detection after the gap (whose baseline was
cleared, giving speed 0) reaches streak 2 and is forced to paused,
whatever the log hint says. -/
theorem gap_preserves_streak (st : MonState) (egap e : TickEnv) (a n : ℕ)
    (samp : DownloadInfo)
    (hgap : detect_appid_from_downloading_dir egap.libs = none) :
    (tick st egap).1.zero_streak = st.zero_streak ∧
    (1 ≤ st.zero_streak → detect_appid_from_downloading_dir e.libs = some a →
      e.dlSize = some n → (tick (tick st egap).1 e).2 = some samp →
      samp.status = Status.paused) := by
  have hg := tick_none st egap hgap
  constructor
  · rw [hg]
  · intro hstreak hdet hsize h7
    rw [hg] at h7
    dsimp only at h7
    have h := tick_after_reset ({ st with last_size := none, last_appid := none })
      e a n hdet hsize rfl
    rw [h7] at h
    injection h with h
    subst h
    show applyZeroSpeed 0 (applyHysteresis (st.zero_streak + 1)
      (e.hintStatus.getD Status.unknown)) = Status.paused
    rw [applyHysteresis_of_two (by omega), applyZeroSpeed_paused]

/-- Claim C9 witness: streak 1 before a gap tick; the post-gap tick
observing app 570 with a downloading hint is still forced to paused. -/
theorem gap_preserves_streak_witness :
    (tick c9st c9gap).1.zero_streak = c9st.zero_streak ∧
    (tick (tick c9st c9gap).1 c9e).2 = some c9samp ∧
    c9samp.status = Status.paused := by
  have h := gap_preserves_streak c9st c9gap c9e 570 100 c9samp (by decide)
  have hdet : detect_appid_from_downloading_dir [dotaLib] = some 570 := by decide
  have hgapeq : detect_appid_from_downloading_dir ([] : List LibScan) = none := by decide
  have heq : (tick (tick c9st c9gap).1 c9e).2 = some c9samp := by
    norm_num [tick, hdet, hgapeq, c9st, c9gap, c9e, c9samp, measure, streakUpdate,
      applyHysteresis, applyZeroSpeed, Option.getD, abs_zero]
  exact ⟨h.1, heq, h.2 (by norm_num [c9st]) (by decide) (by decide) heq⟩

lemma rclamp_nonneg (x : ℚ) : 0 ≤ rclamp x := by
  rw [rclamp]
  split_ifs with h
  · exact le_refl 0
  · exact not_lt.mp h

lemma rclamp_of_nonneg {x : ℚ} (h : 0 ≤ x) : rclamp x = x := by
  rw [rclamp, if_neg (not_lt.mpr h)]

lemma rs_loop3_eq (m : ℚ) :
    rs_loop 3 m 0 =
      if 1024 ≤ m then
        if 1024 ≤ m / 1024 then
          if 1024 ≤ m / 1024 / 1024 then (m / 1024 / 1024 / 1024, 3)
          else (m / 1024 / 1024, 2)
        else (m / 1024, 1)
      else (m, 0) := by
  norm_num [rs_loop, speedUnits]

lemma rs_core_tier (x : ℚ) :
    real_speed_core x = (rclamp x / 1024 ^ tierOf (rclamp x), tierOf (rclamp x)) := by
  have hpos : (0 : ℚ) < 1024 := by norm_num
  set m := rclamp x with hm
  rw [real_speed_core, ← hm, rs_loop3_eq]
  have h2 : ((1024 : ℚ) ≤ m / 1024) ↔ (1024 : ℚ) ^ 2 ≤ m := by
    rw [le_div_iff₀ hpos, show ((1024 : ℚ)) * 1024 = 1024 ^ 2 from by norm_num]
  have h3 : ((1024 : ℚ) ≤ m / 1024 / 1024) ↔ (1024 : ℚ) ^ 3 ≤ m := by
    rw [le_div_iff₀ hpos, le_div_iff₀ hpos,
      show ((1024 : ℚ)) * 1024 * 1024 = 1024 ^ 3 from by norm_num]
  have hv2 : m / 1024 / 1024 = m / 1024 ^ 2 := by
    rw [div_div, show ((1024 : ℚ)) * 1024 = 1024 ^ 2 from by norm_num]
  have hv3 : m / 1024 / 1024 / 1024 = m / 1024 ^ 3 := by
    rw [div_div, div_div, show ((1024 : ℚ)) * (1024 * 1024) = 1024 ^ 3 from by norm_num]
  rw [tierOf]
  by_cases c3 : (1024 : ℚ) ^ 3 ≤ m
  · have c2 : (1024 : ℚ) ^ 2 ≤ m := le_trans (by norm_num) c3
    have c1 : (1024 : ℚ) ≤ m := le_trans (by norm_num) c3
    rw [if_pos c1, if_pos (h2.mpr c2), if_pos (h3.mpr c3), if_pos c3, hv3]
  · by_cases c2 : (1024 : ℚ) ^ 2 ≤ m
    · have c1 : (1024 : ℚ) ≤ m := le_trans (by norm_num) c2
      rw [if_pos c1, if_pos (h2.mpr c2), if_neg (fun hc => c3 (h3.mp hc)), if_neg c3,
        if_pos c2, hv2]
    · by_cases c1 : (1024 : ℚ) ≤ m
      · rw [if_pos c1, if_neg (fun hc => c2 (h2.mp hc)), if_neg c3, if_neg c2,
          if_pos c1, pow_one]
      · rw [if_neg c1, if_neg c3, if_neg c2, if_neg c1, pow_zero, div_one]

lemma tierOf_le_three (m : ℚ) : tierOf m ≤ 3 := by
  rw [tierOf]
  split_ifs <;> norm_num

lemma val_lt_of_tier_lt (m : ℚ) (h : tierOf m < 3) :
    m / 1024 ^ tierOf m < 1024 := by
  rw [tierOf] at h ⊢
  split_ifs at h ⊢ with c3 c2 c1
  · exact absurd h (by norm_num)
  · rw [div_lt_iff (by positivity)]
    linarith [not_le.mp c3, show ((1024 : ℚ)) * 1024 ^ 2 = 1024 ^ 3 from by norm_num]
  · rw [div_lt_iff (by positivity)]
    linarith [not_le.mp c2, show ((1024 : ℚ)) * 1024 ^ 1 = 1024 ^ 2 from by norm_num]
  · rw [pow_zero, div_one]
    exact not_le.mp c1

lemma one_le_val_of_tier_pos (m : ℚ) (h : 0 < tierOf m) :
    1 ≤ m / 1024 ^ tierOf m := by
  rw [tierOf] at h ⊢
  split_ifs at h ⊢ with c3 c2 c1
  · rw [le_div_iff₀ (by positivity), one_mul]
    exact c3
  · rw [le_div_iff₀ (by positivity), one_mul]
    exact c2
  · rw [le_div_iff₀ (by positivity), one_mul, pow_one]
    exact c1
  · exact absurd h (by norm_num)

lemma tierOf_mono {a b : ℚ} (hab : a ≤ b) : tierOf a ≤ tierOf b := by
  rw [tierOf, tierOf]
  split_ifs <;> first | omega | (exfalso; linarith)

lemma round_mono_q {a b : ℚ} (h : a ≤ b) : round a ≤ round b := by
  rw [round_eq, round_eq]
  exact Int.floor_le_floor (by linarith)

lemma round2_mono {a b : ℚ} (h : a ≤ b) : round2 a ≤ round2 b := by
  unfold round2
  rw [div_le_div_right (by norm_num : (0 : ℚ) < 100)]
  exact_mod_cast round_mono_q (mul_le_mul_of_nonneg_right h (by norm_num))

lemma round2_le_1024 {v : ℚ} (hv : v < 1024) : round2 v ≤ 1024 := by
  unfold round2
  rw [div_le_iff (by norm_num : (0 : ℚ) < 100)]
  have h1 : round (v * 100) ≤ round ((102400 : ℚ)) := round_mono_q (by linarith)
  have h2 : round ((102400 : ℚ)) = 102400 := by
    rw [show ((102400 : ℚ)) = ((102400 : ℤ) : ℚ) from by norm_num]
    exact round_intCast 102400
  have h3 : round (v * 100) ≤ (102400 : ℤ) := h1.trans_eq h2
  calc ((round (v * 100) : ℤ) : ℚ) ≤ ((102400 : ℤ) : ℚ) := by exact_mod_cast h3
    _ = 1024 * 100 := by norm_num

lemma one_le_round2 {v : ℚ} (hv : 1 ≤ v) : 1 ≤ round2 v := by
  unfold round2
  rw [le_div_iff₀ (by norm_num : (0 : ℚ) < 100), one_mul]
  have h1 : round ((100 : ℚ)) ≤ round (v * 100) := round_mono_q (by linarith)
  have h2 : round ((100 : ℚ)) = 100 := by
    rw [show ((100 : ℚ)) = ((100 : ℤ) : ℚ) from by norm_num]
    exact round_intCast 100
  have h3 : (100 : ℤ) ≤ round (v * 100) := h2 ▸ h1
  calc (100 : ℚ) = ((100 : ℤ) : ℚ) := by norm_num
    _ ≤ ((round (v * 100) : ℤ) : ℚ) := by exact_mod_cast h3

/-- Claim C7: for every non-negative byte count, real_speed selects the
unit so that the scaled value is below 1024 except at the top unit (and
at least 1 above the bottom unit, so the unit is the largest that fits);
the unit index never exceeds the top tier; and the rendered
magnitude-with-unit — the two-decimal rounded value times the unit's
byte multiplier — is monotonically non-decreasing in the input. -/
theorem real_speed_unit_monotone (x y : ℚ) (hx : 0 ≤ x) (hxy : x ≤ y) :
    ((real_speed_core x).2 < 3 → (real_speed_core x).1 < 1024) ∧
    (0 < (real_speed_core x).2 → 1 ≤ (real_speed_core x).1) ∧
    (real_speed_core x).2 ≤ 3 ∧
    round2 (real_speed_core x).1 * 1024 ^ (real_speed_core x).2 ≤
      round2 (real_speed_core y).1 * 1024 ^ (real_speed_core y).2 := by
  have hy : 0 ≤ y := le_trans hx hxy
  have hcx := rs_core_tier x
  have hcy := rs_core_tier y
  rw [rclamp_of_nonneg hx] at hcx
  rw [rclamp_of_nonneg hy] at hcy
  rw [hcx, hcy]
  dsimp only
  refine ⟨fun h => val_lt_of_tier_lt x h, fun h => one_le_val_of_tier_pos x h,
    tierOf_le_three x, ?_⟩
  have hij : tierOf x ≤ tierOf y := tierOf_mono hxy
  rcases eq_or_lt_of_le hij with heq | hlt
  · rw [← heq]
    have hdiv : x / 1024 ^ tierOf x ≤ y / 1024 ^ tierOf x :=
      (div_le_div_right (by positivity)).mpr hxy
    exact mul_le_mul_of_nonneg_right (round2_mono hdiv) (by positivity)
  · have hvx : x / 1024 ^ tierOf x < 1024 :=
      val_lt_of_tier_lt x (lt_of_lt_of_le hlt (tierOf_le_three y))
    have hvy : 1 ≤ y / 1024 ^ tierOf y :=
      one_le_val_of_tier_pos y (Nat.lt_of_le_of_lt (Nat.zero_le _) hlt)
    calc round2 (x / 1024 ^ tierOf x) * 1024 ^ tierOf x
        ≤ 1024 * 1024 ^ tierOf x :=
          mul_le_mul_of_nonneg_right (round2_le_1024 hvx) (by positivity)
      _ = 1024 ^ (tierOf x + 1) := by ring
      _ ≤ 1024 ^ tierOf y := pow_le_pow_right₀ (by norm_num) hlt
      _ = 1 * 1024 ^ tierOf y := (one_mul _).symm
      _ ≤ round2 (y / 1024 ^ tierOf y) * 1024 ^ tierOf y :=
          mul_le_mul_of_nonneg_right (one_le_round2 hvy) (by positivity)

/-- Claim C7 witness: instantiated at inputs 3 and 2048 bytes per
second, which straddle the first unit boundary. -/
theorem real_speed_unit_monotone_witness :
    ((real_speed_core 3).2 < 3 → (real_speed_core 3).1 < 1024) ∧
    (0 < (real_speed_core 3).2 → 1 ≤ (real_speed_core 3).1) ∧
    (real_speed_core 3).2 ≤ 3 ∧
    round2 (real_speed_core 3).1 * 1024 ^ (real_speed_core 3).2 ≤
      round2 (real_speed_core 2048).1 * 1024 ^ (real_speed_core 2048).2 :=
  real_speed_unit_monotone 3 2048 (by norm_num) (by norm_num)

/-- Claim C10: every negative input is clamped to 0 before formatting,
so a negative computed throughput renders exactly as "0.00 B/s". -/
theorem real_speed_neg_clamped (x : ℚ) (hx : x < 0) : real_speed x = "0.00 B/s" := by
  have hc : rclamp x = 0 := by rw [rclamp, if_pos hx]
  have hcore : real_speed_core x = (0, 0) := by
    rw [real_speed_core, hc, rs_loop3_eq, if_neg (by norm_num)]
  have hfmt : format2 0 = "0.00" := by
    have hr : round ((0 : ℚ) * 100) = 0 := by simp
    simp only [format2, hr]
    decide
  rw [real_speed, hcore]
  dsimp only
  rw [hfmt]
  decide

/-- Claim C10 witness: the input -7 renders as "0.00 B/s". -/
theorem real_speed_neg_clamped_witness : real_speed (-7) = "0.00 B/s" :=
  real_speed_neg_clamped (-7) (by norm_num)

end SteamScript
